import Mathlib

/-!
Verification development for the CAP2 banking ledger
(source file CAP2_02230090.py).

Shallow embedding conventions:
* Python float balances are modelled as exact rationals `ℚ` (the spec's
  "decimal quantity"); the comparisons and arithmetic in the source
  (`>=`, `+=`, `-=`) are exact on the values the program manipulates.
* `hashlib.sha256(...).hexdigest()` is modelled by a parameter
  `hash : String → String`; theorems that need a property of SHA-256
  assume it explicitly (determinism is automatic, injectivity is the
  standard collision-freeness idealization, and `hash s ≠ s` holds for
  a fixed-width hex digest).  Concrete evaluations use `hashC` below,
  an executable stand-in with those properties.
* The process-wide dict `self.accounts` is modelled as an association
  list `AccountMap` with Python-dict semantics: unique keys, insertion
  replaces in place, deletion removes the key.  Because a Python dict
  can never hold two entries with one key, updating every entry whose
  key matches is extensionally the dict's single-slot mutation.
* The backing file is modelled as `Option (List String)`: `none` when
  `os.path.exists` is false, otherwise the list of lines.
* Mutation of a shared `Account` object (the session handle aliases the
  dict's entry) is modelled by updating the entry under the account's
  number.
-/

namespace CAP2

/-- One account record: `Account.__init__` stores the account number, the
*hashed* password, the account type and the balance. -/
structure Account where
  account_number : String
  password : String
  account_type : String
  balance : ℚ
deriving DecidableEq

/-- `Account.__init__(self, account_number, password, account_type, balance)`:
stores `hash_password(password)` in the `password` slot. -/
def Account.init (hash : String → String)
    (account_number password account_type : String) (balance : ℚ) : Account :=
  ⟨account_number, hash password, account_type, balance⟩

/-- `Account.deposit(self, amount)`: `self.balance += amount`. -/
def Account.deposit (a : Account) (amount : ℚ) : Account :=
  ⟨a.account_number, a.password, a.account_type, a.balance + amount⟩

/-- `Account.withdraw(self, amount)`: if `self.balance >= amount` then
`self.balance -= amount; return True` else `return False`.  The pair is
(returned bool, account after the call). -/
def Account.withdraw (a : Account) (amount : ℚ) : Bool × Account :=
  if a.balance ≥ amount then
    (true, ⟨a.account_number, a.password, a.account_type, a.balance - amount⟩)
  else
    (false, a)

/-- Decimal expansion of `num/den` (`num < den`), most significant digit
first, stopping at remainder 0 or when the fuel runs out.  Auxiliary for
`ratRepr`. -/
def decDigits (num den : ℕ) : ℕ → String
  | 0 => ""
  | fuel + 1 =>
    if num = 0 then ""
    else Nat.repr (num * 10 / den) ++ decDigits (num * 10 % den) den fuel

/-- Python's `str` on a float value, restricted to the decimally
representable values this program produces: optional minus sign, integer
part, a dot, and the fractional digits (at least one, as in `0.0`). -/
def ratRepr (q : ℚ) : String :=
  let sign := if q < 0 then "-" else ""
  let n := q.num.natAbs
  let frac := decDigits (n % q.den) q.den 30
  sign ++ Nat.repr (n / q.den) ++ "." ++ (if frac = "" then "0" else frac)

/-- `Account.to_string(self)`: the line
`f"{self.account_number},{self.password},{self.account_type},{self.balance}\n"`. -/
def Account.to_string (a : Account) : String :=
  a.account_number ++ "," ++ a.password ++ "," ++ a.account_type ++ ","
    ++ ratRepr a.balance ++ "\x0a"

/-- The ledger mapping `self.accounts` (account number ↦ Account). -/
abbrev AccountMap := List (String × Account)

/-- Dict lookup `self.accounts[n]` / `n in self.accounts` (first match). -/
def lookupAcc : AccountMap → String → Option Account
  | [], _ => none
  | (k, a) :: rest, n => if k = n then some a else lookupAcc rest n

/-- Dict assignment `self.accounts[n] = a`: replaces in place when the key
exists, otherwise appends (Python dicts preserve insertion order). -/
def insertAcc : AccountMap → String → Account → AccountMap
  | [], n, a => [(n, a)]
  | (k, b) :: rest, n, a =>
    if k = n then (k, a) :: rest else (k, b) :: insertAcc rest n a

/-- In-place mutation of the account object stored under key `n` (the dict
holds at most one entry per key, so mapping over all matches is the dict's
single-slot update). -/
def updateAcc (m : AccountMap) (n : String) (f : Account → Account) : AccountMap :=
  m.map (fun p => if p.1 = n then (p.1, f p.2) else p)

/-- `del self.accounts[n]`. -/
def deleteAcc (m : AccountMap) (n : String) : AccountMap :=
  m.filter (fun p => decide (p.1 ≠ n))

/-- Python `str.split(sep)` for a one-character separator, over the
character list: splits at every occurrence, keeping empty pieces. -/
def splitOnChar (c : Char) : List Char → List (List Char)
  | [] => [[]]
  | x :: xs =>
    if x = c then [] :: splitOnChar c xs
    else
      match splitOnChar c xs with
      | [] => [[x]]
      | g :: gs => (x :: g) :: gs

/-- Python `str.strip()`: remove leading and trailing whitespace. -/
def stripChars (l : List Char) : List Char :=
  ((l.dropWhile Char.isWhitespace).reverse.dropWhile Char.isWhitespace).reverse

/-- The natural number denoted by a list of decimal digit characters. -/
def natOfDigits (l : List Char) : ℕ :=
  l.foldl (fun acc c => acc * 10 + (c.toNat - 48)) 0

/-- Python `float(s)` restricted to plain decimal notation (sign, digits,
optional fractional part) — the notation covering every balance string this
program writes; anything else is a `ValueError`, i.e. `none`. -/
def parseFloat (s : String) : Option ℚ :=
  let core : List Char → Option ℚ := fun str =>
    match splitOnChar '.' str with
    | [ip] =>
      if ip ≠ [] ∧ ip.all Char.isDigit then some ((natOfDigits ip : ℚ))
      else none
    | [ip, fp] =>
      if ip ++ fp ≠ [] ∧ (ip ++ fp).all Char.isDigit then
        some ((natOfDigits (ip ++ fp) : ℚ) / 10 ^ fp.length)
      else none
    | _ => none
  match s.data with
  | '-' :: rest => (core rest).map (fun q => -q)
  | '+' :: rest => core rest
  | rest => core rest

/-- One iteration of the `load_accounts` loop body:
`account_number, password, account_type, balance = line.strip().split(',')`
followed by `Account(account_number, password, account_type, float(balance))`.
`none` models the `ValueError` a malformed line raises.  Note the source
feeds the stored field through `Account.__init__`, which hashes it again. -/
def parseLine (hash : String → String) (line : String) : Option Account :=
  match splitOnChar ',' (stripChars line.data) with
  | [account_number, password, account_type, balance] =>
    (parseFloat (String.mk balance)).map
      (fun b =>
        Account.init hash (String.mk account_number) (String.mk password)
          (String.mk account_type) b)
  | _ => none

/-- `BankingApp.load_accounts(self)`: missing file ⇒ the dict stays empty;
otherwise each line is parsed and inserted under its account number
(`none` models the uncaught exception on a malformed line). -/
def load_accounts (hash : String → String)
    (file : Option (List String)) : Option AccountMap :=
  match file with
  | none => some []
  | some lines =>
    lines.foldlM
      (fun m line =>
        (parseLine hash line).map (fun a => insertAcc m a.account_number a))
      []

/-- `BankingApp.save_accounts(self)`: one `to_string` line per account, in
dict enumeration order. -/
def save_accounts (m : AccountMap) : List String :=
  m.map (fun p => p.2.to_string)

/-- `BankingApp.create_account(self, account_type)`, with the two random
draws (`account_number`, `password`) passed in explicitly: builds a fresh
zero-balance `Account` and assigns it into the dict with no uniqueness
check.  (The subsequent `save_accounts` call does not change the dict.) -/
def create_account (hash : String → String) (m : AccountMap)
    (account_number password account_type : String) : AccountMap :=
  insertAcc m account_number (Account.init hash account_number password account_type 0)

/-- `BankingApp.login(self, account_number, password)`: returns the account
when the number is present and the stored digest equals
`hash_password(password)`, else `None`. -/
def login (hash : String → String) (m : AccountMap)
    (account_number password : String) : Option Account :=
  match lookupAcc m account_number with
  | some account => if account.password = hash password then some account else none
  | none => none

/-- `BankingApp.delete_account(self, account_number)`. -/
def delete_account (m : AccountMap) (account_number : String) : Bool × AccountMap :=
  match lookupAcc m account_number with
  | some _ => (true, deleteAcc m account_number)
  | none => (false, m)

/-- `BankingApp.transfer_money(self, from_account, to_account_number, amount)`:
fails when the recipient number is absent; otherwise runs
`from_account.withdraw(amount)` (mutating the sender object, i.e. the dict
entry under `from_account.account_number`) and on success runs
`to_account.deposit(amount)` on the entry fetched under
`to_account_number`.  The pair is (returned bool, dict after the call). -/
def transfer_money (m : AccountMap) (from_account : Account)
    (to_account_number : String) (amount : ℚ) : Bool × AccountMap :=
  match lookupAcc m to_account_number with
  | some _ =>
    if (from_account.withdraw amount).1 then
      (true,
        updateAcc
          (updateAcc m from_account.account_number (fun a => (a.withdraw amount).2))
          to_account_number (fun a => a.deposit amount))
    else (false, m)
  | none => (false, m)

/-- Executable stand-in for `hash_password` (SHA-256 hexdigest) used in
concrete evaluations: deterministic, injective, and never the identity —
the three properties of the real digest the program relies on. -/
def hashC (s : String) : String := "#" ++ s

/-- The ledger operations of the main loop, with every random draw and
every user-typed value passed in explicitly. -/
inductive Op where
  | create (account_number password account_type : String)
  | loginOp (account_number password : String)
  | deposit (account_number : String) (amount : ℚ)
  | withdraw (account_number : String) (amount : ℚ)
  | transfer (from_number to_number : String) (amount : ℚ)
  | delete (account_number : String)
deriving DecidableEq

/-- Effect of one main-loop operation on the accounts dict.  `loginOp`
reads but never writes; `deposit`/`withdraw` act on the session object,
i.e. the dict entry under the session's account number; `transfer` calls
`transfer_money` with the session object. -/
def step (hash : String → String) (m : AccountMap) : Op → AccountMap
  | Op.create n p t => create_account hash m n p t
  | Op.loginOp _ _ => m
  | Op.deposit n amt => updateAcc m n (fun a => a.deposit amt)
  | Op.withdraw n amt =>
    match lookupAcc m n with
    | some a =>
      if (a.withdraw amt).1 then updateAcc m n (fun b => (b.withdraw amt).2) else m
    | none => m
  | Op.transfer f t amt =>
    match lookupAcc m f with
    | some a => (transfer_money m a t amt).2
    | none => m
  | Op.delete n => (delete_account m n).2

/-- The dict obtained by running a list of operations from the fresh-start
empty dict. -/
def runOps (hash : String → String) (ops : List Op) : AccountMap :=
  ops.foldl (step hash) []

/-- A ledger state reachable from the initial (empty) state. -/
def Reachable (hash : String → String) (m : AccountMap) : Prop :=
  ∃ ops, runOps hash ops = m

/-- The amounts an operation feeds to `deposit` are nonnegative (withdraw
amounts are unconstrained: the `balance >= amount` guard already keeps the
withdrawn-from balance nonnegative). -/
def nonnegAmounts : Op → Prop
  | Op.deposit _ amt => 0 ≤ amt
  | Op.transfer _ _ amt => 0 ≤ amt
  | _ => True

end CAP2

namespace CAP2

/-! ### Helper lemmas about the dict operations -/

theorem updateAcc_cons (k : String) (a : Account) (rest : AccountMap)
    (n : String) (f : Account → Account) :
    updateAcc ((k, a) :: rest) n f
      = (if k = n then (k, f a) else (k, a)) :: updateAcc rest n f := by
  by_cases h : k = n <;> simp [updateAcc, h]

theorem lookupAcc_updateAcc (m : AccountMap) (n k : String) (f : Account → Account) :
    lookupAcc (updateAcc m n f) k
      = (lookupAcc m k).map (fun a => if k = n then f a else a) := by
  induction m with
  | nil => rfl
  | cons p rest ih =>
    obtain ⟨k', a⟩ := p
    rw [updateAcc_cons]
    by_cases h1 : k' = n
    · rw [if_pos h1]
      subst h1
      by_cases h2 : k' = k
      · subst h2
        simp [lookupAcc]
      · simp [lookupAcc, h2, Ne.symm h2, ih]
    · rw [if_neg h1]
      by_cases h2 : k' = k
      · subst h2
        simp [lookupAcc, h1, Ne.symm h1]
      · simp [lookupAcc, h1, h2, Ne.symm h2, ih]

theorem updateAcc_updateAcc (m : AccountMap) (n : String) (f g : Account → Account) :
    updateAcc (updateAcc m n f) n g = updateAcc m n (fun a => g (f a)) := by
  induction m with
  | nil => rfl
  | cons p rest ih =>
    obtain ⟨k, a⟩ := p
    by_cases h : k = n <;> simp [updateAcc_cons, h, ih]

theorem updateAcc_eq_self (m : AccountMap) (n : String) (f : Account → Account)
    (h : ∀ p ∈ m, p.1 = n → f p.2 = p.2) : updateAcc m n f = m := by
  induction m with
  | nil => rfl
  | cons p rest ih =>
    obtain ⟨k, a⟩ := p
    rw [updateAcc_cons]
    by_cases hk : k = n
    · rw [if_pos hk, h (k, a) (List.mem_cons_self _ _) hk,
        ih (fun q hq => h q (List.mem_cons_of_mem _ hq))]
    · rw [if_neg hk, ih (fun q hq => h q (List.mem_cons_of_mem _ hq))]

theorem entry_eq_of_nodup (m : AccountMap) (hnodup : (m.map Prod.fst).Nodup)
    (n : String) (a : Account) (hl : lookupAcc m n = some a) :
    ∀ p ∈ m, p.1 = n → p.2 = a := by
  induction m with
  | nil => intro p hp; cases hp
  | cons q rest ih =>
    obtain ⟨k, b⟩ := q
    simp only [List.map_cons, List.nodup_cons] at hnodup
    intro p hp hpn
    rcases List.mem_cons.mp hp with rfl | hp2
    · simp only [lookupAcc] at hl
      rw [if_pos hpn] at hl
      exact Option.some.inj hl
    · have hk : k ≠ n := by
        intro hkn
        exact hnodup.1 (List.mem_map.mpr ⟨p, hp2, hpn.trans hkn.symm⟩)
      simp only [lookupAcc, if_neg hk] at hl
      exact ih hnodup.2 hl p hp2 hpn

theorem lookupAcc_insertAcc_self (m : AccountMap) (n : String) (a : Account) :
    lookupAcc (insertAcc m n a) n = some a := by
  induction m with
  | nil => simp [insertAcc, lookupAcc]
  | cons p rest ih =>
    obtain ⟨k, b⟩ := p
    by_cases h : k = n <;> simp [insertAcc, lookupAcc, h, ih]

theorem mem_insertAcc (m : AccountMap) (n : String) (a : Account)
    (p : String × Account) (h : p ∈ insertAcc m n a) : p ∈ m ∨ p = (n, a) := by
  induction m with
  | nil => simpa [insertAcc] using h
  | cons q rest ih =>
    obtain ⟨k, b⟩ := q
    by_cases hk : k = n
    · simp only [insertAcc, if_pos hk] at h
      rcases List.mem_cons.mp h with rfl | h2
      · exact Or.inr (by rw [hk])
      · exact Or.inl (List.mem_cons_of_mem _ h2)
    · simp only [insertAcc, if_neg hk] at h
      rcases List.mem_cons.mp h with rfl | h2
      · exact Or.inl (List.mem_cons_self _ _)
      · rcases ih h2 with h3 | h3
        · exact Or.inl (List.mem_cons_of_mem _ h3)
        · exact Or.inr h3

/-! ### The nonnegative-balance invariant -/

/-- Every account in the dict has a nonnegative balance. -/
def allNonneg (m : AccountMap) : Prop := ∀ p ∈ m, 0 ≤ p.2.balance

theorem withdraw_balance_nonneg (a : Account) (amount : ℚ) (h : 0 ≤ a.balance) :
    0 ≤ (a.withdraw amount).2.balance := by
  unfold Account.withdraw
  by_cases hge : a.balance ≥ amount
  · rw [if_pos hge]
    exact sub_nonneg.mpr hge
  · rw [if_neg hge]
    exact h

theorem allNonneg_updateAcc (m : AccountMap) (n : String) (f : Account → Account)
    (hm : allNonneg m) (hf : ∀ a : Account, 0 ≤ a.balance → 0 ≤ (f a).balance) :
    allNonneg (updateAcc m n f) := by
  intro p hp
  simp only [updateAcc, List.mem_map] at hp
  obtain ⟨q, hq, rfl⟩ := hp
  by_cases h : q.1 = n
  · simpa [h] using hf _ (hm q hq)
  · simpa [h] using hm q hq

theorem allNonneg_insertAcc (m : AccountMap) (n : String) (a : Account)
    (hm : allNonneg m) (ha : 0 ≤ a.balance) : allNonneg (insertAcc m n a) := by
  intro p hp
  rcases mem_insertAcc m n a p hp with h | h
  · exact hm p h
  · rw [h]; exact ha

theorem allNonneg_transfer (m : AccountMap) (a : Account) (t : String) (amt : ℚ)
    (hamt : 0 ≤ amt) (hm : allNonneg m) : allNonneg (transfer_money m a t amt).2 := by
  unfold transfer_money
  cases hl : lookupAcc m t with
  | none => exact hm
  | some b =>
    by_cases hw : (a.withdraw amt).1 = true
    · rw [if_pos hw]
      exact allNonneg_updateAcc _ t (fun c => c.deposit amt)
        (allNonneg_updateAcc m a.account_number (fun c => (c.withdraw amt).2) hm
          (fun c hc => withdraw_balance_nonneg c amt hc))
        (fun c hc => by simpa [Account.deposit] using add_nonneg hc hamt)
    · rw [if_neg hw]
      exact hm

theorem allNonneg_step (hash : String → String) (m : AccountMap) (op : Op)
    (hop : nonnegAmounts op) (hm : allNonneg m) : allNonneg (step hash m op) := by
  cases op with
  | create n p t =>
    exact allNonneg_insertAcc m n (Account.init hash n p t 0) hm (le_refl 0)
  | loginOp n p => exact hm
  | deposit n amt =>
    have hamt : (0 : ℚ) ≤ amt := hop
    exact allNonneg_updateAcc m n (fun a => a.deposit amt) hm
      (fun a ha => by simpa [Account.deposit] using add_nonneg ha hamt)
  | withdraw n amt =>
    simp only [step]
    cases hl : lookupAcc m n with
    | none => exact hm
    | some a =>
      show allNonneg
        (if (a.withdraw amt).1 = true then updateAcc m n (fun b => (b.withdraw amt).2) else m)
      by_cases hw : (a.withdraw amt).1 = true
      · rw [if_pos hw]
        exact allNonneg_updateAcc m n (fun b => (b.withdraw amt).2) hm
          (fun b hb => withdraw_balance_nonneg b amt hb)
      · rw [if_neg hw]
        exact hm
  | transfer f t amt =>
    have hamt : (0 : ℚ) ≤ amt := hop
    simp only [step]
    cases hl : lookupAcc m f with
    | none => exact hm
    | some a => exact allNonneg_transfer m a t amt hamt hm
  | delete n =>
    simp only [step, delete_account]
    cases hl : lookupAcc m n with
    | none => exact hm
    | some a =>
      exact fun p hp => hm p (List.mem_of_mem_filter hp)

theorem allNonneg_foldl (hash : String → String) (ops : List Op) (m : AccountMap)
    (hops : ∀ op ∈ ops, nonnegAmounts op) (hm : allNonneg m) :
    allNonneg (ops.foldl (step hash) m) := by
  induction ops generalizing m with
  | nil => exact hm
  | cons op rest ih =>
    exact ih _ (fun o ho => hops o (List.mem_cons_of_mem _ ho))
      (allNonneg_step hash m op (hops op (List.mem_cons_self _ _)) hm)

end CAP2

namespace CAP2

/-! ### Claim theorems -/

/-- C1 (code bug exhibited): deserializing the line serialized from an
account does NOT return the account field-for-field: `load_accounts`
feeds the stored credential digest back through `Account.__init__`, which
hashes it a second time, so the digest field comes back as
`hash (hash secret)` instead of `hash secret`. -/
theorem C1_roundtrip_rehashes_digest :
    parseLine hashC ((Account.init hashC "100000" "1234" "savings" 0).to_string)
      = some (Account.mk "100000" (hashC (hashC "1234")) "savings" 0)
    ∧ hashC (hashC "1234") ≠ hashC "1234" := by
  constructor
  · simp +decide [parseLine, parseFloat, stripChars, splitOnChar, natOfDigits,
      Account.to_string, ratRepr, decDigits, Account.init, hashC]
  · decide

/-- C2 (code bug exhibited): authentication with the exact creation-time
secret succeeds in memory, but after a save followed by a reload of the
backing file the same login fails, because the reload re-hashes the stored
digest. -/
theorem C2_reload_breaks_authentication :
    login hashC (create_account hashC [] "100000" "1234" "savings") "100000" "1234"
      = some (Account.mk "100000" (hashC "1234") "savings" 0)
    ∧ load_accounts hashC
        (some (save_accounts (create_account hashC [] "100000" "1234" "savings")))
      = some [("100000", Account.mk "100000" (hashC (hashC "1234")) "savings" 0)]
    ∧ (load_accounts hashC
        (some (save_accounts (create_account hashC [] "100000" "1234" "savings")))).map
        (fun m => login hashC m "100000" "1234") = some none := by
  refine ⟨by decide, ?_, ?_⟩ <;>
    simp +decide [load_accounts, save_accounts, create_account, insertAcc, login,
      lookupAcc, parseLine, parseFloat, stripChars, splitOnChar, natOfDigits,
      Account.to_string, ratRepr, decDigits, Account.init, hashC]

/-- C3 counterexample: a reachable ledger state (create, then deposit of a
negative amount) contains a strictly negative balance, refuting the
unconditional nonnegativity invariant. -/
theorem C3_counterexample :
    Reachable hashC [("100000", Account.mk "100000" (hashC "1111") "savings" (-1))]
    ∧ ((-1 : ℚ) < 0) := by
  refine ⟨⟨[Op.create "100000" "1111" "savings", Op.deposit "100000" (-1)], ?_⟩, by norm_num⟩
  simp [runOps, step, create_account, insertAcc, updateAcc, Account.init, Account.deposit]

/-- C3 (amended): in every ledger state reachable by create, authenticate,
deposit, withdraw, transfer and delete in which every deposit and transfer
amount is nonnegative, every account's balance is nonnegative. -/
theorem C3_nonneg_invariant (hash : String → String) (ops : List Op)
    (hops : ∀ op ∈ ops, nonnegAmounts op) :
    ∀ p ∈ runOps hash ops, 0 ≤ p.2.balance :=
  allNonneg_foldl hash ops [] hops (fun p hp => absurd hp (List.not_mem_nil p))

/-- Witness for C3 (amended) at a concrete nonnegative-amount run. -/
theorem C3_witness :
    (∀ op ∈ [Op.create "100000" "1111" "savings", Op.deposit "100000" (100 : ℚ)],
      nonnegAmounts op)
    ∧ ∀ p ∈ runOps hashC [Op.create "100000" "1111" "savings",
        Op.deposit "100000" (100 : ℚ)], 0 ≤ p.2.balance := by
  have hops : ∀ op ∈ [Op.create "100000" "1111" "savings",
      Op.deposit "100000" (100 : ℚ)], nonnegAmounts op := by
    intro op hop
    simp only [List.mem_cons, List.not_mem_nil, or_false] at hop
    rcases hop with rfl | rfl
    · trivial
    · show (0 : ℚ) ≤ 100
      norm_num
  exact ⟨hops, C3_nonneg_invariant hashC _ hops⟩

/-- C4: `withdraw(amount)` succeeds iff `balance >= amount`; on success the
balance is decremented by exactly `amount` (all other fields kept), on
failure the account is unchanged and `False` is returned. -/
theorem C4_withdraw_all_or_nothing (a : Account) (amount : ℚ) :
    ((a.withdraw amount).1 = true ↔ amount ≤ a.balance)
    ∧ (amount ≤ a.balance →
        (a.withdraw amount).2
          = ⟨a.account_number, a.password, a.account_type, a.balance - amount⟩)
    ∧ (¬ amount ≤ a.balance →
        (a.withdraw amount).1 = false ∧ (a.withdraw amount).2 = a) := by
  unfold Account.withdraw
  by_cases h : a.balance ≥ amount
  · rw [if_pos h]
    exact ⟨iff_of_true rfl h, fun _ => rfl, fun h2 => absurd h h2⟩
  · rw [if_neg h]
    exact ⟨iff_of_false (by simp) h, fun h2 => absurd h2 h, fun _ => ⟨rfl, rfl⟩⟩

/-- Witness for C4 at a concrete account and amount. -/
theorem C4_witness :
    ((Account.mk "100000" (hashC "1111") "savings" 50).withdraw 30).1 = true
    ∧ ((Account.mk "100000" (hashC "1111") "savings" 50).withdraw 30).2
        = Account.mk "100000" (hashC "1111") "savings" 20 := by
  have h := C4_withdraw_all_or_nothing (Account.mk "100000" (hashC "1111") "savings" 50) 30
  refine ⟨h.1.mpr (by norm_num), ?_⟩
  rw [h.2.1 (by norm_num)]
  norm_num

/-- C5: a transfer that fails (absent recipient or insufficient sender
funds) returns `False` and leaves the whole accounts dict — in particular
the sender's and any recipient's balance — unchanged. -/
theorem C5_failed_transfer_no_change (m : AccountMap) (from_account : Account)
    (to_account_number : String) (amount : ℚ)
    (h : lookupAcc m to_account_number = none ∨ from_account.balance < amount) :
    transfer_money m from_account to_account_number amount = (false, m) := by
  unfold transfer_money
  cases hl : lookupAcc m to_account_number with
  | none => rfl
  | some b =>
    rcases h with h | h
    · rw [hl] at h
      cases h
    · have hw : ¬ (from_account.balance ≥ amount) := not_le.mpr h
      unfold Account.withdraw
      rw [if_neg hw]
      simp

/-- Witness for C5: insufficient funds, dict returned unchanged. -/
theorem C5_witness :
    transfer_money [("100002", Account.mk "100002" (hashC "2222") "current" 5)]
      (Account.mk "100001" (hashC "1111") "savings" 10) "100002" 50
      = (false, [("100002", Account.mk "100002" (hashC "2222") "current" 5)]) :=
  C5_failed_transfer_no_change _ _ _ _ (Or.inr (by norm_num))

/-- C6: a transfer between two distinct accounts with sufficient sender
funds succeeds, debits the sender by the amount and credits the recipient
by the same amount. -/
theorem C6_transfer_success (m : AccountMap) (a b : Account)
    (to_account_number : String) (amount : ℚ)
    (hfrom : lookupAcc m a.account_number = some a)
    (hto : lookupAcc m to_account_number = some b)
    (hne : a.account_number ≠ to_account_number)
    (hbal : amount ≤ a.balance) :
    (transfer_money m a to_account_number amount).1 = true
    ∧ lookupAcc (transfer_money m a to_account_number amount).2 a.account_number
        = some ⟨a.account_number, a.password, a.account_type, a.balance - amount⟩
    ∧ lookupAcc (transfer_money m a to_account_number amount).2 to_account_number
        = some ⟨b.account_number, b.password, b.account_type, b.balance + amount⟩ := by
  have hw : (a.withdraw amount).1 = true := by
    unfold Account.withdraw
    rw [if_pos hbal]
  have htm : transfer_money m a to_account_number amount
      = (true, updateAcc (updateAcc m a.account_number (fun c => (c.withdraw amount).2))
          to_account_number (fun c => c.deposit amount)) := by
    unfold transfer_money
    rw [hto, hw]
    rfl
  rw [htm]
  refine ⟨rfl, ?_, ?_⟩
  · rw [lookupAcc_updateAcc, lookupAcc_updateAcc, hfrom]
    simp [hne, Account.withdraw, ge_iff_le, hbal]
  · rw [lookupAcc_updateAcc, lookupAcc_updateAcc, hto]
    simp [Ne.symm hne, Account.deposit]

/-- Witness for C6: sender at 50.0 and recipient at 0.0; transferring 30.0
leaves them at 20.0 and 30.0. -/
theorem C6_witness :
    (transfer_money
        [("100001", Account.mk "100001" (hashC "1111") "savings" 50),
         ("100002", Account.mk "100002" (hashC "2222") "current" 0)]
        (Account.mk "100001" (hashC "1111") "savings" 50) "100002" 30).1 = true
    ∧ lookupAcc (transfer_money
        [("100001", Account.mk "100001" (hashC "1111") "savings" 50),
         ("100002", Account.mk "100002" (hashC "2222") "current" 0)]
        (Account.mk "100001" (hashC "1111") "savings" 50) "100002" 30).2 "100001"
        = some (Account.mk "100001" (hashC "1111") "savings" 20)
    ∧ lookupAcc (transfer_money
        [("100001", Account.mk "100001" (hashC "1111") "savings" 50),
         ("100002", Account.mk "100002" (hashC "2222") "current" 0)]
        (Account.mk "100001" (hashC "1111") "savings" 50) "100002" 30).2 "100002"
        = some (Account.mk "100002" (hashC "2222") "current" 30) := by
  have h := C6_transfer_success
    [("100001", Account.mk "100001" (hashC "1111") "savings" 50),
     ("100002", Account.mk "100002" (hashC "2222") "current" 0)]
    (Account.mk "100001" (hashC "1111") "savings" 50)
    (Account.mk "100002" (hashC "2222") "current" 0)
    "100002" 30 rfl rfl (by decide) (by norm_num)
  refine ⟨h.1, ?_, ?_⟩
  · rw [h.2.1]
    norm_num
  · rw [h.2.2]
    norm_num

end CAP2

namespace CAP2

/-- C7 counterexample: for an account whose balance is below the (negative)
amount, the `balance >= amount` check fails, so the claimed unconditional
success of a negative-amount withdrawal is false. -/
theorem C7_counterexample :
    ((-1 : ℚ) < 0)
    ∧ (Account.mk "100000" (hashC "1111") "savings" (-10)).withdraw (-1)
        = (false, Account.mk "100000" (hashC "1111") "savings" (-10)) := by
  constructor
  · norm_num
  · have h : ¬ ((Account.mk "100000" (hashC "1111") "savings" (-10)).balance ≥ (-1 : ℚ)) := by
      norm_num
    unfold Account.withdraw
    rw [if_neg h]

/-- C7 (amended): for every account whose balance is at least the amount —
in particular every account with nonnegative balance — a strictly negative
withdrawal amount passes the `balance >= amount` check, returns `True`, and
increases the balance by the absolute value of the amount. -/
theorem C7_negative_withdraw_increases (a : Account) (amount : ℚ)
    (hneg : amount < 0) (hbal : amount ≤ a.balance) :
    (a.withdraw amount).1 = true
    ∧ (a.withdraw amount).2.balance = a.balance + |amount|
    ∧ a.balance < (a.withdraw amount).2.balance := by
  have h2 : (a.withdraw amount).2.balance = a.balance - amount := by
    unfold Account.withdraw
    rw [if_pos hbal]
  refine ⟨?_, ?_, ?_⟩
  · unfold Account.withdraw
    rw [if_pos hbal]
  · rw [h2, abs_of_neg hneg, sub_eq_add_neg]
  · rw [h2]
    linarith

/-- Witness for C7 (amended) at a concrete zero-balance account. -/
theorem C7_witness :
    ((Account.mk "100000" (hashC "1111") "savings" 0).withdraw (-5)).1 = true
    ∧ ((Account.mk "100000" (hashC "1111") "savings" 0).withdraw (-5)).2.balance = 5 := by
  have h := C7_negative_withdraw_increases
    (Account.mk "100000" (hashC "1111") "savings" 0) (-5) (by norm_num) (by norm_num)
  refine ⟨h.1, ?_⟩
  rw [h.2.1]
  norm_num

/-- C8: when the backing file does not exist, `load_accounts` succeeds and
leaves the accounts dict empty, so a fresh `BankingApp` starts with no
accounts. -/
theorem C8_missing_file_empty_ledger (hash : String → String) :
    load_accounts hash none = some [] := rfl

/-- C9: a self-transfer with sufficient balance returns `True` and leaves
the accounts dict — the sender and every other account — unchanged: the
withdrawal and the deposit hit the same account object. -/
theorem C9_self_transfer_no_change (m : AccountMap) (a : Account) (amount : ℚ)
    (hnodup : (m.map Prod.fst).Nodup)
    (hfrom : lookupAcc m a.account_number = some a)
    (hbal : amount ≤ a.balance) :
    transfer_money m a a.account_number amount = (true, m) := by
  have hw : (a.withdraw amount).1 = true := by
    unfold Account.withdraw
    rw [if_pos hbal]
  have htm : transfer_money m a a.account_number amount
      = (true, updateAcc (updateAcc m a.account_number (fun c => (c.withdraw amount).2))
          a.account_number (fun c => c.deposit amount)) := by
    unfold transfer_money
    rw [hfrom, hw]
    rfl
  rw [htm, updateAcc_updateAcc]
  have hfix : ∀ p ∈ m, p.1 = a.account_number →
      Account.deposit ((p.2.withdraw amount).2) amount = p.2 := by
    intro p hp hpn
    rw [entry_eq_of_nodup m hnodup a.account_number a hfrom p hp hpn]
    have hv : (a.withdraw amount).2
        = ⟨a.account_number, a.password, a.account_type, a.balance - amount⟩ := by
      unfold Account.withdraw
      rw [if_pos hbal]
    rw [hv]
    unfold Account.deposit
    show (⟨a.account_number, a.password, a.account_type, a.balance - amount + amount⟩
      : Account) = a
    rw [sub_add_cancel]
  rw [updateAcc_eq_self m a.account_number _ hfix]

/-- Witness for C9 at a concrete one-account ledger. -/
theorem C9_witness :
    transfer_money [("100001", Account.mk "100001" (hashC "1111") "savings" 50)]
      (Account.mk "100001" (hashC "1111") "savings" 50) "100001" 30
      = (true, [("100001", Account.mk "100001" (hashC "1111") "savings" 50)]) :=
  C9_self_transfer_no_change _ _ _ (by simp) rfl (by norm_num)

/-- C10: when `create_account` draws an account number already present in
the dict, the newly built zero-balance account silently replaces the
existing entry — no uniqueness check guards the assignment. -/
theorem C10_create_overwrites (hash : String → String) (m : AccountMap)
    (account_number password account_type : String) (old : Account)
    (h : lookupAcc m account_number = some old) :
    lookupAcc (create_account hash m account_number password account_type)
        account_number
      = some (Account.init hash account_number password account_type 0)
    ∧ (Account.init hash account_number password account_type 0).balance = 0 :=
  ⟨lookupAcc_insertAcc_self m account_number _, rfl⟩

/-- Witness for C10 at a concrete occupied account number. -/
theorem C10_witness :
    lookupAcc
        (create_account hashC
          [("100000", Account.mk "100000" (hashC "9999") "current" 77)]
          "100000" "1234" "savings") "100000"
      = some (Account.init hashC "100000" "1234" "savings" 0)
    ∧ (Account.init hashC "100000" "1234" "savings" 0).balance = 0 :=
  C10_create_overwrites hashC _ "100000" "1234" "savings"
    (Account.mk "100000" (hashC "9999") "current" 77) rfl

end CAP2
